import Mathlib

/-!
Verification of the strategy-engine core of the predict-trading-system
repository: a shallow embedding of the event model, the Delta-Neutral
strategy evaluator, the engine dispatch loop, the command executor and
the stream subscriber, with theorems settling the specified properties.

Modelling conventions: Go dynamic values of type map[string]interface
are embedded as association lists of `GoVal`; a Go comma-ok type
assertion with a dropped ok flag becomes a total accessor returning the
zero value on mismatch; float64 is embedded as the rationals; the pair
(result, error) returned by Go functions becomes `Except String`.
-/

/-- Embedding of a Go interface value as produced by JSON decoding:
strings, numbers (float64, embedded as rationals), booleans, lists,
string-keyed objects, and nil. -/
inductive GoVal where
  | str : String → GoVal
  | num : ℚ → GoVal
  | boolean : Bool → GoVal
  | list : List GoVal → GoVal
  | obj : List (String × GoVal) → GoVal
  | null : GoVal

/-- A Go map with string keys, embedded as an association list. -/
abbrev GoMap := List (String × GoVal)

/-- Map indexing: the value at the first occurrence of the key, none if
the key is absent (Go map access yielding the nil interface). -/
def lookupKey : GoMap → String → Option GoVal
  | [], _ => none
  | (k, v) :: rest, key => if k = key then some v else lookupKey rest key

/-- The Go pattern s, _ := v.(string): the string when the value is a
string, the zero value otherwise (also when the key was absent). -/
def asString : Option GoVal → String
  | some (GoVal.str s) => s
  | _ => ""

/-- The Go pattern f, _ := v.(float64): the number when the value is a
number, the zero value otherwise (also when the key was absent). -/
def asFloat : Option GoVal → ℚ
  | some (GoVal.num q) => q
  | _ => 0

/-- types.Event: an event delivered from the bus. The timestamp is kept
as an opaque string since no strategy logic reads it. -/
structure Event where
  ID : String
  type_ : String
  Platform : String
  Timestamp : String
  Data : GoMap

/-- types.Command: an instruction produced by a strategy evaluator. -/
structure Command where
  type_ : String
  Platform : String
  AccountID : String
  MarketID : String
  Side : String
  Price : ℚ
  Shares : ℚ
  Metadata : GoMap

/-- types.Strategy: a configuration record loaded from the store. -/
structure Strategy where
  ID : String
  Name : String
  type_ : String
  Active : Bool
  Config : GoMap
  ActiveAccounts : List String

/-- The price clamp at the end of DeltaNeutralHandler: raise below 0.01
to 0.01, then lower above 0.99 to 0.99 (two sequential if statements in
the source). -/
def clampPrice (p : ℚ) : ℚ :=
  let p1 := if p < 1/100 then 1/100 else p
  if p1 > 99/100 then 99/100 else p1

/-- The pair-table scan of DeltaNeutralHandler: the first entry that is
an object whose primary field equals the account id or the account name
yields its hedge field (possibly empty); entries that are not objects
are skipped; no match yields the empty string. -/
def findPairedAccount : List GoVal → String → String → String
  | [], _, _ => ""
  | p :: rest, accountID, accountName =>
    match p with
    | GoVal.obj pair =>
      let primaryID := asString (lookupKey pair "primary")
      let hedgeID := asString (lookupKey pair "hedge")
      if primaryID = accountID ∨ primaryID = accountName then hedgeID
      else findPairedAccount rest accountID accountName
    | _ => findPairedAccount rest accountID accountName

/-- strategies.DeltaNeutralHandler: given an event and a strategy,
produce the hedge commands or a configuration error. Mirrors
delta_neutral.go line by line: type filter, field extraction, required
field check, pairs config assertion, platform default, pair lookup,
side inversion, price adjustment and clamp, command construction. -/
def DeltaNeutralHandler (event : Event) (strategy : Strategy) :
    Except String (List Command) :=
  if event.type_ ≠ "fill" ∧ event.type_ ≠ "trade_executed" then Except.ok []
  else
    let accountID := asString (lookupKey event.Data "account_id")
    let accountName := asString (lookupKey event.Data "account_name")
    let marketID := asString (lookupKey event.Data "market_id")
    let side := asString (lookupKey event.Data "side")
    let price := asFloat (lookupKey event.Data "price")
    let shares := asFloat (lookupKey event.Data "shares")
    if accountID = "" ∨ marketID = "" ∨ side = "" then Except.ok []
    else
      match lookupKey strategy.Config "pairs" with
      | some (GoVal.list pairs) =>
        let targetPlatform0 := asString (lookupKey strategy.Config "target_platform")
        let targetPlatform := if targetPlatform0 = "" then "predict" else targetPlatform0
        let pairedAccountID := findPairedAccount pairs accountID accountName
        if pairedAccountID = "" then Except.ok []
        else
          let oppositeSide := if side = "no" then "yes" else "no"
          let priceAdjustment := asFloat (lookupKey strategy.Config "price_adjustment")
          let hedgePrice := clampPrice (price + priceAdjustment)
          Except.ok [{ type_ := "place_order"
                       Platform := targetPlatform
                       AccountID := pairedAccountID
                       MarketID := marketID
                       Side := oppositeSide
                       Price := hedgePrice
                       Shares := shares
                       Metadata := [("strategy", GoVal.str strategy.Name),
                                    ("original_fill", GoVal.str event.ID),
                                    ("original_account", GoVal.str accountID),
                                    ("original_side", GoVal.str side)] }]
      | _ => Except.error "invalid pairs config"

/-- The concrete fill event of the specified scenario: account A fills
10 shares of market M1 on side yes at price 0.60. -/
def fillEventA : Event :=
  { ID := "evt-1"
    type_ := "fill"
    Platform := "predict"
    Timestamp := "2024-01-01T00:00:00Z"
    Data := [("account_id", GoVal.str "A"),
             ("market_id", GoVal.str "M1"),
             ("side", GoVal.str "yes"),
             ("price", GoVal.num (3/5)),
             ("shares", GoVal.num 10)] }

/-- The concrete strategy of the specified scenario: one pair mapping
primary A to hedge B, target platform predict, zero price adjustment. -/
def dnStrategyAB : Strategy :=
  { ID := "s-1"
    Name := "dn1"
    type_ := "delta_neutral"
    Active := true
    Config := [("pairs", GoVal.list
                  [GoVal.obj [("primary", GoVal.str "A"),
                              ("hedge", GoVal.str "B")]]),
               ("target_platform", GoVal.str "predict"),
               ("price_adjustment", GoVal.num 0)]
    ActiveAccounts := ["A", "B"] }

/-- The hedge command that DeltaNeutralHandler builds for fillEventA
under dnStrategyAB. -/
def hedgeCommandA : Command :=
  { type_ := "place_order"
    Platform := "predict"
    AccountID := "B"
    MarketID := "M1"
    Side := "no"
    Price := 3/5
    Shares := 10
    Metadata := [("strategy", GoVal.str "dn1"),
                 ("original_fill", GoVal.str "evt-1"),
                 ("original_account", GoVal.str "A"),
                 ("original_side", GoVal.str "yes")] }

/-- A fill event whose identifier fields are present but whose price and
shares entries are absent from the payload. -/
def fillEventNoPrice : Event :=
  { ID := "evt-2"
    type_ := "fill"
    Platform := "predict"
    Timestamp := "2024-01-01T00:00:01Z"
    Data := [("account_id", GoVal.str "A"),
             ("market_id", GoVal.str "M1"),
             ("side", GoVal.str "yes")] }

/-- The hedge command DeltaNeutralHandler builds for fillEventNoPrice
under dnStrategyAB: the absent price and shares default to zero, the
zero price is clamped up to 0.01, and a command is still emitted. -/
def hedgeCommandNoPrice : Command :=
  { type_ := "place_order"
    Platform := "predict"
    AccountID := "B"
    MarketID := "M1"
    Side := "no"
    Price := 1/100
    Shares := 0
    Metadata := [("strategy", GoVal.str "dn1"),
                 ("original_fill", GoVal.str "evt-2"),
                 ("original_account", GoVal.str "A"),
                 ("original_side", GoVal.str "yes")] }

/-- A fill event identical in shape to fillEventA except that its side
field holds the string maybe, which is neither yes nor no. -/
def fillEventSideMaybe : Event :=
  { ID := "evt-3"
    type_ := "fill"
    Platform := "predict"
    Timestamp := "2024-01-01T00:00:02Z"
    Data := [("account_id", GoVal.str "A"),
             ("market_id", GoVal.str "M1"),
             ("side", GoVal.str "maybe"),
             ("price", GoVal.num (3/5)),
             ("shares", GoVal.num 10)] }

/-- The hedge command DeltaNeutralHandler builds for fillEventSideMaybe
under dnStrategyAB: the unrecognized side maybe still yields hedge side
no, since only the exact string no flips the hedge to yes. -/
def hedgeCommandSideMaybe : Command :=
  { type_ := "place_order"
    Platform := "predict"
    AccountID := "B"
    MarketID := "M1"
    Side := "no"
    Price := 3/5
    Shares := 10
    Metadata := [("strategy", GoVal.str "dn1"),
                 ("original_fill", GoVal.str "evt-3"),
                 ("original_account", GoVal.str "A"),
                 ("original_side", GoVal.str "maybe")] }

/-- An event of a type outside the fill class. -/
def accountCreatedEvent : Event :=
  { ID := "evt-4"
    type_ := "account_created"
    Platform := "predict"
    Timestamp := "2024-01-01T00:00:03Z"
    Data := [("account_id", GoVal.str "A"),
             ("market_id", GoVal.str "M1"),
             ("side", GoVal.str "yes"),
             ("price", GoVal.num (3/5)),
             ("shares", GoVal.num 10)] }

/-- True exactly on the error constructor: the Go test err != nil. -/
def isErr : Except String (List Command) → Bool
  | Except.error _ => true
  | Except.ok _ => false

/-- True exactly when an optional Go value is a list: the comma-ok type
assertion to a slice of interface values succeeds. -/
def isGoList : Option GoVal → Bool
  | some (GoVal.list _) => true
  | _ => false

/-- types.StrategyHandler: the evaluation function signature. -/
abbrev StrategyHandler := Event → Strategy → Except String (List Command)

/-- engine.Engine.handleEvent: iterate the strategy snapshot for one
event; skip inactive strategies, skip strategies whose type has no
registered handler, log and continue past a handler error, skip empty
command lists, and otherwise hand the commands to the executor. The
returned list collects, in iteration order, each command batch passed
to ExecuteCommands. The registry lookup under the read lock is embedded
as the handlers function. -/
def handleEvent (handlers : String → Option StrategyHandler) (event : Event) :
    List Strategy → List (List Command)
  | [] => []
  | strategy :: rest =>
    let tail := handleEvent handlers event rest
    if strategy.Active then
      match handlers strategy.type_ with
      | none => tail
      | some handler =>
        match handler event strategy with
        | Except.error _ => tail
        | Except.ok commands =>
          if commands.isEmpty then tail else commands :: tail
    else tail

/-- executor.Executor: the two execution-service base URLs and the
global dry-run flag (the HTTP client is external state). -/
structure Executor where
  predictURL : String
  polymarketURL : String
  dryRun : Bool

/-- The outbound HTTP POST built by executor.placeOrder: target URL and
JSON body. -/
structure TradeRequest where
  url : String
  payload : GoMap

/-- executor.Executor.placeOrder, request-construction part: select the
base URL by platform (predict unless the platform is exactly
polymarket), POST to the trade path, and send the command fields with a
confirm flag that is the negation of dry-run. -/
def placeOrderRequest (e : Executor) (cmd : Command) : TradeRequest :=
  let baseURL := e.predictURL
  let baseURL := if cmd.Platform = "polymarket" then e.polymarketURL else baseURL
  { url := baseURL ++ "/trade"
    payload := [("account_id", GoVal.str cmd.AccountID),
                ("market_id", GoVal.str cmd.MarketID),
                ("side", GoVal.str cmd.Side),
                ("price", GoVal.num cmd.Price),
                ("shares", GoVal.num cmd.Shares),
                ("confirm", GoVal.boolean (!e.dryRun))] }

/-- executor.Executor.executeCommand: dispatch on the command type. The
outcome of the HTTP exchange of placeOrder (transport errors, non-200
responses, body decoding) is external and passed in as an oracle;
cancelOrder only logs and returns nil. -/
def executeCommand (placeOrderOutcome : Command → Except String Unit)
    (cmd : Command) : Except String Unit :=
  match cmd.type_ with
  | "place_order" => placeOrderOutcome cmd
  | "cancel_order" => Except.ok ()
  | _ => Except.error ("unknown command type: " ++ cmd.type_)

/-- executor.Executor.ExecuteCommands: attempt every command in order,
logging failures and continuing; always return nil to the caller. The
first component records each attempted command with its outcome, the
second is the value returned to the caller. -/
def ExecuteCommands (placeOrderOutcome : Command → Except String Unit) :
    List Command → List (Command × Except String Unit) × Except String Unit
  | [] => ([], Except.ok ())
  | cmd :: rest =>
    let attempt := executeCommand placeOrderOutcome cmd
    let result := ExecuteCommands placeOrderOutcome rest
    ((cmd, attempt) :: result.1, result.2)

/-- A Redis stream entry as delivered by XREAD. -/
structure XMessage where
  ID : String
  Values : GoMap

/-- The event eventbus.RedisEventBus.parseEvent reconstructs from a
stream entry: id from the entry id, type and platform from string
fields when present (empty otherwise), timestamp parsed from an RFC3339
string when present and parseable (receipt time otherwise), data
unmarshalled from a JSON string field when present and well formed
(empty map otherwise). RFC3339 parsing and JSON unmarshalling are
external and passed in as oracles; now is the receipt time. -/
def parsedEvent (parseRFC3339 : String → Option String)
    (jsonUnmarshal : String → Option GoMap) (now : String)
    (msg : XMessage) : Event :=
  { ID := msg.ID
    type_ := asString (lookupKey msg.Values "type")
    Platform := asString (lookupKey msg.Values "platform")
    Timestamp :=
      match lookupKey msg.Values "timestamp" with
      | some (GoVal.str s) =>
        match parseRFC3339 s with
        | some t => t
        | none => now
      | _ => now
    Data :=
      match lookupKey msg.Values "data" with
      | some (GoVal.str s) =>
        match jsonUnmarshal s with
        | some d => d
        | none => []
      | _ => [] }

/-- eventbus.RedisEventBus.parseEvent: tolerant decoding that always
returns the reconstructed event and a nil error. -/
def parseEvent (parseRFC3339 : String → Option String)
    (jsonUnmarshal : String → Option GoMap) (now : String)
    (msg : XMessage) : Except String Event :=
  Except.ok (parsedEvent parseRFC3339 jsonUnmarshal now msg)

/-- One observable step of the subscriber loop body: a handler
invocation completing with an outcome, or the cursor of a stream being
advanced to an entry id. -/
inductive SubAction where
  | handled : String → Except String Unit → SubAction
  | advanced : String → SubAction

/-- The cursor-update statement of the subscriber loop: set the last-id
slot of every subscribed stream whose name equals the delivering stream
to the delivered entry id. -/
def updateCursor (cursors : List (String × String)) (streamName id : String) :
    List (String × String) :=
  cursors.map (fun c => if c.1 = streamName then (c.1, id) else c)

/-- The inner message loop of eventbus.RedisEventBus.Subscribe for one
stream of one XREAD batch: parse each entry (a parse failure would be
skipped without advancing, mirroring the source branch), invoke the
handler, log a handler error without acting on it, then advance the
cursor of the delivering stream to the entry id. Returns the ordered
trace of observable steps and the final cursor table. -/
def processMessages (parseRFC3339 : String → Option String)
    (jsonUnmarshal : String → Option GoMap) (now : String)
    (handler : Event → Except String Unit) (streamName : String) :
    List XMessage → List (String × String) →
      List SubAction × List (String × String)
  | [], cursors => ([], cursors)
  | msg :: rest, cursors =>
    match parseEvent parseRFC3339 jsonUnmarshal now msg with
    | Except.error _ =>
      processMessages parseRFC3339 jsonUnmarshal now handler streamName rest cursors
    | Except.ok event =>
      let outcome := handler event
      let cursors1 := updateCursor cursors streamName msg.ID
      let result :=
        processMessages parseRFC3339 jsonUnmarshal now handler streamName rest cursors1
      (SubAction.handled msg.ID outcome :: SubAction.advanced msg.ID :: result.1,
       result.2)

/-- A minimal strategy record used to instantiate engine theorems. -/
def plainStrategy (n : String) : Strategy :=
  { ID := n
    Name := n
    type_ := n
    Active := true
    Config := []
    ActiveAccounts := [] }

/-- A minimal command used to instantiate engine and executor
theorems. -/
def plainCommand : Command :=
  { type_ := "place_order"
    Platform := "predict"
    AccountID := "B"
    MarketID := "M1"
    Side := "no"
    Price := 1/2
    Shares := 1
    Metadata := [] }

/-- A registry in which the type t2 resolves to an evaluator that fails
with a configuration error and every other type resolves to an
evaluator producing one command. -/
def mixedHandlers : String → Option StrategyHandler :=
  fun n =>
    if n = "t2" then some (fun _ _ => Except.error "invalid pairs config")
    else some (fun _ _ => Except.ok [plainCommand])

/-- A fill event whose side field is absent from the payload. -/
def fillEventNoSide : Event :=
  { ID := "evt-5"
    type_ := "fill"
    Platform := "predict"
    Timestamp := "2024-01-01T00:00:04Z"
    Data := [("account_id", GoVal.str "A"),
             ("market_id", GoVal.str "M1"),
             ("price", GoVal.num (3/5)),
             ("shares", GoVal.num 10)] }

/-- The clamp of DeltaNeutralHandler agrees with the max-min form used
by the specification. -/
theorem clampPrice_eq_max_min (p : ℚ) :
    clampPrice p = max (1/100) (min (99/100) p) := by
  simp only [clampPrice]
  rw [max_def, min_def]
  split_ifs <;> linarith

/-- When no object entry of the pair table has a primary field equal to
the account id or the account name, the pair scan yields the empty
string. -/
theorem findPairedAccount_empty (l : List GoVal) (a n : String)
    (h : ∀ pair ∈ l, ∀ m, pair = GoVal.obj m →
      asString (lookupKey m "primary") ≠ a ∧
      asString (lookupKey m "primary") ≠ n) :
    findPairedAccount l a n = "" := by
  induction l with
  | nil => rfl
  | cons p rest ih =>
    have hrest : ∀ pair ∈ rest, ∀ m, pair = GoVal.obj m →
        asString (lookupKey m "primary") ≠ a ∧
        asString (lookupKey m "primary") ≠ n :=
      fun pair hp => h pair (List.mem_cons_of_mem _ hp)
    cases p with
    | obj m =>
      have hm := h (GoVal.obj m) (List.mem_cons_self _ _) m rfl
      show (if asString (lookupKey m "primary") = a ∨
              asString (lookupKey m "primary") = n
            then asString (lookupKey m "hedge")
            else findPairedAccount rest a n) = ""
      rw [if_neg]
      · exact ih hrest
      · rintro (h' | h')
        · exact hm.1 h'
        · exact hm.2 h'
    | str s => exact ih hrest
    | num q => exact ih hrest
    | boolean b => exact ih hrest
    | list l2 => exact ih hrest
    | null => exact ih hrest

/-- Any command in a successful DeltaNeutralHandler result carries the
inverted side and the clamped adjusted price. -/
theorem dnh_command_shape (e : Event) (s : Strategy) (cmds : List Command)
    (c : Command) (hok : DeltaNeutralHandler e s = Except.ok cmds)
    (hmem : c ∈ cmds) :
    c.Side = (if asString (lookupKey e.Data "side") = "no" then "yes" else "no") ∧
    c.Price = clampPrice (asFloat (lookupKey e.Data "price") +
      asFloat (lookupKey s.Config "price_adjustment")) := by
  simp only [DeltaNeutralHandler] at hok
  split at hok
  · injection hok with h
    subst h
    cases hmem
  · split at hok
    · injection hok with h
      subst h
      cases hmem
    · split at hok
      · split at hok
        · injection hok with h
          subst h
          cases hmem
        · injection hok with h
          subst h
          simp only [List.mem_singleton] at hmem
          subst hmem
          exact ⟨rfl, rfl⟩
      · exact (Except.noConfusion hok)

/-- Evaluation of DeltaNeutralHandler on the concrete scenario event
and strategy. -/
theorem dnh_fillEventA :
    DeltaNeutralHandler fillEventA dnStrategyAB = Except.ok [hedgeCommandA] := by
  simp [DeltaNeutralHandler, fillEventA, dnStrategyAB, hedgeCommandA, lookupKey,
    asString, asFloat, findPairedAccount, clampPrice]
  norm_num

/-- Evaluation of DeltaNeutralHandler on the fill event whose side is
the unrecognized string maybe. -/
theorem dnh_fillEventSideMaybe :
    DeltaNeutralHandler fillEventSideMaybe dnStrategyAB =
      Except.ok [hedgeCommandSideMaybe] := by
  simp [DeltaNeutralHandler, fillEventSideMaybe, dnStrategyAB,
    hedgeCommandSideMaybe, lookupKey, asString, asFloat, findPairedAccount,
    clampPrice]
  norm_num



/-- C1: for the scenario fill event (account A, market M1, side yes,
price 0.60, shares 10) and the strategy pairing primary A with hedge B
on platform predict with zero price adjustment, DeltaNeutralHandler
returns no error and exactly one command whose fields are place_order,
predict, account B, market M1, side no, price 0.60, shares 10. -/
theorem dn_scenario_exact_hedge_command :
    DeltaNeutralHandler fillEventA dnStrategyAB = Except.ok [hedgeCommandA] ∧
    hedgeCommandA.type_ = "place_order" ∧
    hedgeCommandA.Platform = "predict" ∧
    hedgeCommandA.AccountID = "B" ∧
    hedgeCommandA.MarketID = "M1" ∧
    hedgeCommandA.Side = "no" ∧
    hedgeCommandA.Price = 3/5 ∧
    hedgeCommandA.Shares = 10 :=
  ⟨dnh_fillEventA, rfl, rfl, rfl, rfl, rfl, rfl, rfl⟩

/-- C2: every command in a successful DeltaNeutralHandler result has
price max(0.01, min(0.99, p + a)), where p is the price read from the
event payload and a the price adjustment read from the strategy config,
both zero when absent or not a number. -/
theorem dn_hedge_price_clamped (e : Event) (s : Strategy)
    (cmds : List Command) (c : Command)
    (hok : DeltaNeutralHandler e s = Except.ok cmds) (hmem : c ∈ cmds) :
    c.Price = max (1/100) (min (99/100)
      (asFloat (lookupKey e.Data "price") +
       asFloat (lookupKey s.Config "price_adjustment"))) := by
  rw [← clampPrice_eq_max_min]
  exact (dnh_command_shape e s cmds c hok hmem).2

/-- Witness for C2: the clamp equation instantiated on the concrete
scenario event and strategy. -/
theorem dn_hedge_price_clamped_witness :
    DeltaNeutralHandler fillEventA dnStrategyAB = Except.ok [hedgeCommandA] ∧
    hedgeCommandA ∈ [hedgeCommandA] ∧
    hedgeCommandA.Price = max (1/100) (min (99/100)
      (asFloat (lookupKey fillEventA.Data "price") +
       asFloat (lookupKey dnStrategyAB.Config "price_adjustment"))) :=
  ⟨dnh_fillEventA, List.mem_singleton_self _,
   dn_hedge_price_clamped fillEventA dnStrategyAB [hedgeCommandA] hedgeCommandA
     dnh_fillEventA (List.mem_singleton_self _)⟩

/-- Counterexample to C3 as stated: a fill event with the account id,
market id and side present but the price and shares fields absent is
not skipped; DeltaNeutralHandler emits one command, with price clamped
to 0.01 and shares zero, rather than an empty command list. -/
theorem dn_required_field_check_cex :
    lookupKey fillEventNoPrice.Data "price" = none ∧
    lookupKey fillEventNoPrice.Data "shares" = none ∧
    DeltaNeutralHandler fillEventNoPrice dnStrategyAB =
      Except.ok [hedgeCommandNoPrice] ∧
    DeltaNeutralHandler fillEventNoPrice dnStrategyAB ≠ Except.ok [] := by
  have h : DeltaNeutralHandler fillEventNoPrice dnStrategyAB =
      Except.ok [hedgeCommandNoPrice] := by
    simp [DeltaNeutralHandler, fillEventNoPrice, dnStrategyAB,
      hedgeCommandNoPrice, lookupKey, asString, asFloat, findPairedAccount,
      clampPrice]
    norm_num
  refine ⟨rfl, rfl, h, ?_⟩
  rw [h]
  simp

/-- C3 (amended): for every event of type fill or trade_executed in
which the account identifier, the market identifier or the side decodes
to the empty string (absent, wrong shape, or empty), DeltaNeutralHandler
returns an empty command list and no error; absent or wrong-shaped price
and shares fields instead default to zero and do not cause a skip. -/
theorem dn_missing_identifier_fields_skip (e : Event) (s : Strategy)
    (_hty : e.type_ = "fill" ∨ e.type_ = "trade_executed")
    (hempty : asString (lookupKey e.Data "account_id") = "" ∨
              asString (lookupKey e.Data "market_id") = "" ∨
              asString (lookupKey e.Data "side") = "") :
    DeltaNeutralHandler e s = Except.ok [] := by
  simp only [DeltaNeutralHandler]
  by_cases h1 : e.type_ ≠ "fill" ∧ e.type_ ≠ "trade_executed"
  · rw [if_pos h1]
  · rw [if_neg h1, if_pos hempty]

/-- Witness for C3: the amended skip rule instantiated on a fill event
whose side field is absent. -/
theorem dn_missing_identifier_fields_skip_witness :
    (fillEventNoSide.type_ = "fill" ∨ fillEventNoSide.type_ = "trade_executed") ∧
    (asString (lookupKey fillEventNoSide.Data "account_id") = "" ∨
     asString (lookupKey fillEventNoSide.Data "market_id") = "" ∨
     asString (lookupKey fillEventNoSide.Data "side") = "") ∧
    DeltaNeutralHandler fillEventNoSide dnStrategyAB = Except.ok [] :=
  ⟨Or.inl rfl, Or.inr (Or.inr rfl),
   dn_missing_identifier_fields_skip fillEventNoSide dnStrategyAB
     (Or.inl rfl) (Or.inr (Or.inr rfl))⟩

/-- Counterexample to C5 as stated: a fill event whose side field holds
the string maybe produces a hedge command whose side is no even though
the triggering side is not yes, so hedge side no is not equivalent to
triggering side yes. -/
theorem dn_side_inversion_cex :
    DeltaNeutralHandler fillEventSideMaybe dnStrategyAB =
      Except.ok [hedgeCommandSideMaybe] ∧
    hedgeCommandSideMaybe.Side = "no" ∧
    asString (lookupKey fillEventSideMaybe.Data "side") ≠ "yes" :=
  ⟨dnh_fillEventSideMaybe, rfl, by decide⟩

/-- C5 (amended): for every command produced by DeltaNeutralHandler,
the hedge side is yes exactly when the triggering side is the string
no; any other triggering side (including yes) yields hedge side no; no
value other than yes or no is ever produced. -/
theorem dn_side_inversion_amended (e : Event) (s : Strategy)
    (cmds : List Command) (c : Command)
    (hok : DeltaNeutralHandler e s = Except.ok cmds) (hmem : c ∈ cmds) :
    (c.Side = "yes" ↔ asString (lookupKey e.Data "side") = "no") ∧
    (asString (lookupKey e.Data "side") ≠ "no" → c.Side = "no") ∧
    (c.Side = "yes" ∨ c.Side = "no") := by
  have hside := (dnh_command_shape e s cmds c hok hmem).1
  by_cases h : asString (lookupKey e.Data "side") = "no"
  · rw [if_pos h] at hside
    simp [hside, h]
  · rw [if_neg h] at hside
    simp [hside, h]

/-- Witness for C5: the amended side rule instantiated on the fill
event whose side is the string maybe. -/
theorem dn_side_inversion_amended_witness :
    DeltaNeutralHandler fillEventSideMaybe dnStrategyAB =
      Except.ok [hedgeCommandSideMaybe] ∧
    hedgeCommandSideMaybe ∈ [hedgeCommandSideMaybe] ∧
    ((hedgeCommandSideMaybe.Side = "yes" ↔
        asString (lookupKey fillEventSideMaybe.Data "side") = "no") ∧
     (asString (lookupKey fillEventSideMaybe.Data "side") ≠ "no" →
        hedgeCommandSideMaybe.Side = "no") ∧
     (hedgeCommandSideMaybe.Side = "yes" ∨ hedgeCommandSideMaybe.Side = "no")) :=
  ⟨dnh_fillEventSideMaybe, List.mem_singleton_self _,
   dn_side_inversion_amended fillEventSideMaybe dnStrategyAB
     [hedgeCommandSideMaybe] hedgeCommandSideMaybe dnh_fillEventSideMaybe
     (List.mem_singleton_self _)⟩

/-- For a fill-class event that passes the required-field check, a
pairs config entry that is a list never yields an error, whatever the
pair scan finds. -/
theorem dnh_ok_of_pairs_list (e : Event) (s : Strategy)
    (hty : e.type_ = "fill" ∨ e.type_ = "trade_executed")
    (ha : asString (lookupKey e.Data "account_id") ≠ "")
    (hm : asString (lookupKey e.Data "market_id") ≠ "")
    (hs : asString (lookupKey e.Data "side") ≠ "")
    (l : List GoVal)
    (hl : lookupKey s.Config "pairs" = some (GoVal.list l)) :
    isErr (DeltaNeutralHandler e s) = false := by
  have h1 : ¬(e.type_ ≠ "fill" ∧ e.type_ ≠ "trade_executed") := by
    rcases hty with h | h <;> simp [h]
  have h2 : ¬(asString (lookupKey e.Data "account_id") = "" ∨
      asString (lookupKey e.Data "market_id") = "" ∨
      asString (lookupKey e.Data "side") = "") := by
    rintro (h | h | h) <;> contradiction
  simp only [DeltaNeutralHandler, if_neg h1, if_neg h2, hl]
  by_cases h3 : findPairedAccount l (asString (lookupKey e.Data "account_id"))
      (asString (lookupKey e.Data "account_name")) = ""
  · rw [if_pos h3]
    rfl
  · rw [if_neg h3]
    rfl

/-- For a fill-class event that passes the required-field check, a
pairs config entry that is absent or not a list yields exactly the
invalid-pairs configuration error. -/
theorem dnh_error_of_pairs_not_list (e : Event) (s : Strategy)
    (hty : e.type_ = "fill" ∨ e.type_ = "trade_executed")
    (ha : asString (lookupKey e.Data "account_id") ≠ "")
    (hm : asString (lookupKey e.Data "market_id") ≠ "")
    (hs : asString (lookupKey e.Data "side") ≠ "")
    (hnl : ∀ l : List GoVal, lookupKey s.Config "pairs" ≠ some (GoVal.list l)) :
    DeltaNeutralHandler e s = Except.error "invalid pairs config" := by
  have h1 : ¬(e.type_ ≠ "fill" ∧ e.type_ ≠ "trade_executed") := by
    rcases hty with h | h <;> simp [h]
  have h2 : ¬(asString (lookupKey e.Data "account_id") = "" ∨
      asString (lookupKey e.Data "market_id") = "" ∨
      asString (lookupKey e.Data "side") = "") := by
    rintro (h | h | h) <;> contradiction
  simp only [DeltaNeutralHandler, if_neg h1, if_neg h2]

/-- C4: given a fill-class event whose account id, market id and side
fields decode to nonempty strings, DeltaNeutralHandler errors exactly
when the pairs config value is missing or not a list; and when pairs is
a list none of whose object entries has a primary equal to the account
id or the account name, the result is an empty command list with no
error. -/
theorem dn_config_error_iff_pairs_malformed (e : Event) (s : Strategy)
    (hty : e.type_ = "fill" ∨ e.type_ = "trade_executed")
    (ha : asString (lookupKey e.Data "account_id") ≠ "")
    (hm : asString (lookupKey e.Data "market_id") ≠ "")
    (hs : asString (lookupKey e.Data "side") ≠ "") :
    isErr (DeltaNeutralHandler e s) = !isGoList (lookupKey s.Config "pairs") ∧
    (∀ l : List GoVal, lookupKey s.Config "pairs" = some (GoVal.list l) →
      (∀ pair ∈ l, ∀ m : GoMap, pair = GoVal.obj m →
        asString (lookupKey m "primary") ≠ asString (lookupKey e.Data "account_id") ∧
        asString (lookupKey m "primary") ≠ asString (lookupKey e.Data "account_name")) →
      DeltaNeutralHandler e s = Except.ok []) := by
  constructor
  · cases hv : lookupKey s.Config "pairs" with
    | none =>
      rw [dnh_error_of_pairs_not_list e s hty ha hm hs (by simp [hv])]
      rfl
    | some v =>
      cases v with
      | str s0 =>
        rw [dnh_error_of_pairs_not_list e s hty ha hm hs (by simp [hv])]
        rfl
      | num q =>
        rw [dnh_error_of_pairs_not_list e s hty ha hm hs (by simp [hv])]
        rfl
      | boolean b =>
        rw [dnh_error_of_pairs_not_list e s hty ha hm hs (by simp [hv])]
        rfl
      | list l0 =>
        rw [dnh_ok_of_pairs_list e s hty ha hm hs l0 hv]
        rfl
      | obj o =>
        rw [dnh_error_of_pairs_not_list e s hty ha hm hs (by simp [hv])]
        rfl
      | null =>
        rw [dnh_error_of_pairs_not_list e s hty ha hm hs (by simp [hv])]
        rfl
  · intro l hl hnomatch
    have h1 : ¬(e.type_ ≠ "fill" ∧ e.type_ ≠ "trade_executed") := by
      rcases hty with h | h <;> simp [h]
    have h2 : ¬(asString (lookupKey e.Data "account_id") = "" ∨
        asString (lookupKey e.Data "market_id") = "" ∨
        asString (lookupKey e.Data "side") = "") := by
      rintro (h | h | h) <;> contradiction
    have hfind := findPairedAccount_empty l
      (asString (lookupKey e.Data "account_id"))
      (asString (lookupKey e.Data "account_name")) hnomatch
    simp only [DeltaNeutralHandler, if_neg h1, if_neg h2, hl]
    rw [if_pos hfind]

/-- Witness for C4: the configuration-error dichotomy instantiated on
the concrete scenario event and strategy, whose pairs config is a list
with a matching pair. -/
theorem dn_config_error_iff_pairs_malformed_witness :
    (fillEventA.type_ = "fill" ∨ fillEventA.type_ = "trade_executed") ∧
    asString (lookupKey fillEventA.Data "account_id") ≠ "" ∧
    asString (lookupKey fillEventA.Data "market_id") ≠ "" ∧
    asString (lookupKey fillEventA.Data "side") ≠ "" ∧
    (isErr (DeltaNeutralHandler fillEventA dnStrategyAB) =
      !isGoList (lookupKey dnStrategyAB.Config "pairs") ∧
     (∀ l : List GoVal,
        lookupKey dnStrategyAB.Config "pairs" = some (GoVal.list l) →
        (∀ pair ∈ l, ∀ m : GoMap, pair = GoVal.obj m →
          asString (lookupKey m "primary") ≠
            asString (lookupKey fillEventA.Data "account_id") ∧
          asString (lookupKey m "primary") ≠
            asString (lookupKey fillEventA.Data "account_name")) →
        DeltaNeutralHandler fillEventA dnStrategyAB = Except.ok [])) :=
  ⟨Or.inl rfl, by decide, by decide, by decide,
   dn_config_error_iff_pairs_malformed fillEventA dnStrategyAB
     (Or.inl rfl) (by decide) (by decide) (by decide)⟩

/-- C6: an evaluator error for one strategy does not prevent the other
strategies from being evaluated and dispatched: with three active
strategies whose types all resolve in the registry, where the second
evaluator fails and the first and third return nonempty command lists,
handleEvent dispatches exactly the first and third batches, in order. -/
theorem engine_partial_failure_isolation
    (handlers : String → Option StrategyHandler) (event : Event)
    (s1 s2 s3 : Strategy) (h1 h2 h3 : StrategyHandler)
    (cmds1 cmds3 : List Command) (msg : String)
    (ha1 : s1.Active = true) (ha2 : s2.Active = true) (ha3 : s3.Active = true)
    (hh1 : handlers s1.type_ = some h1) (hh2 : handlers s2.type_ = some h2)
    (hh3 : handlers s3.type_ = some h3)
    (he1 : h1 event s1 = Except.ok cmds1)
    (he2 : h2 event s2 = Except.error msg)
    (he3 : h3 event s3 = Except.ok cmds3)
    (hne1 : cmds1.isEmpty = false) (hne3 : cmds3.isEmpty = false) :
    handleEvent handlers event [s1, s2, s3] = [cmds1, cmds3] := by
  simp [handleEvent, ha1, ha2, ha3, hh1, hh2, hh3, he1, he2, he3, hne1, hne3]

/-- Witness for C6: the isolation property instantiated on a concrete
registry in which type t2 fails with a configuration error while t1 and
t3 each produce one command. -/
theorem engine_partial_failure_isolation_witness :
    (plainStrategy "t1").Active = true ∧
    (plainStrategy "t2").Active = true ∧
    (plainStrategy "t3").Active = true ∧
    mixedHandlers (plainStrategy "t1").type_ =
      some (fun _ _ => Except.ok [plainCommand]) ∧
    mixedHandlers (plainStrategy "t2").type_ =
      some (fun _ _ => Except.error "invalid pairs config") ∧
    mixedHandlers (plainStrategy "t3").type_ =
      some (fun _ _ => Except.ok [plainCommand]) ∧
    ([plainCommand].isEmpty = false) ∧
    handleEvent mixedHandlers fillEventA
      [plainStrategy "t1", plainStrategy "t2", plainStrategy "t3"] =
      [[plainCommand], [plainCommand]] :=
  ⟨rfl, rfl, rfl, rfl, rfl, rfl, rfl,
   engine_partial_failure_isolation mixedHandlers fillEventA
     (plainStrategy "t1") (plainStrategy "t2") (plainStrategy "t3")
     (fun _ _ => Except.ok [plainCommand])
     (fun _ _ => Except.error "invalid pairs config")
     (fun _ _ => Except.ok [plainCommand])
     [plainCommand] [plainCommand] "invalid pairs config"
     rfl rfl rfl rfl rfl rfl rfl rfl rfl rfl rfl⟩

/-- C7: ExecuteCommands returns nil to its caller for every command
list and every outcome of the individual order placements, and it
attempts every command in the list in order, a failed attempt never
stopping the later ones. -/
theorem executor_never_fails_attempts_all
    (placeOrderOutcome : Command → Except String Unit) (cmds : List Command) :
    (ExecuteCommands placeOrderOutcome cmds).2 = Except.ok () ∧
    (ExecuteCommands placeOrderOutcome cmds).1.map Prod.fst = cmds := by
  induction cmds with
  | nil => exact ⟨rfl, rfl⟩
  | cons c rest ih =>
    refine ⟨ih.1, ?_⟩
    simp only [ExecuteCommands, List.map]
    rw [ih.2]

/-- C8: processing a batch of stream entries emits, for every entry in
delivery order, first the handler completion with its outcome (success
or failure) and then the cursor advance to that entry id, and the final
cursor table is the one obtained by advancing the cursor for every
delivered entry. -/
theorem subscriber_cursor_always_advances_after_handler
    (parseRFC3339 : String → Option String)
    (jsonUnmarshal : String → Option GoMap) (now : String)
    (handler : Event → Except String Unit) (streamName : String)
    (msgs : List XMessage) (cursors : List (String × String)) :
    (processMessages parseRFC3339 jsonUnmarshal now handler streamName
        msgs cursors).1 =
      msgs.flatMap (fun msg =>
        [SubAction.handled msg.ID
           (handler (parsedEvent parseRFC3339 jsonUnmarshal now msg)),
         SubAction.advanced msg.ID]) ∧
    (processMessages parseRFC3339 jsonUnmarshal now handler streamName
        msgs cursors).2 =
      msgs.foldl (fun cs msg => updateCursor cs streamName msg.ID) cursors := by
  induction msgs generalizing cursors with
  | nil => exact ⟨rfl, rfl⟩
  | cons m rest ih =>
    refine ⟨?_, ?_⟩
    · simp only [processMessages, parseEvent, List.flatMap_cons]
      rw [(ih _).1]
      rfl
    · simp only [processMessages, parseEvent, List.foldl]
      rw [(ih _).2]

/-- C9: DeltaNeutralHandler yields an empty result and no error for
every event whose type is neither fill nor trade_executed, whatever the
payload and the strategy configuration. -/
theorem dn_non_fill_events_skipped (e : Event) (s : Strategy)
    (h1 : e.type_ ≠ "fill") (h2 : e.type_ ≠ "trade_executed") :
    DeltaNeutralHandler e s = Except.ok [] := by
  unfold DeltaNeutralHandler
  rw [if_pos ⟨h1, h2⟩]

/-- Witness for C9: the type filter instantiated on an account_created
event carried by a fully populated payload and an active strategy. -/
theorem dn_non_fill_events_skipped_witness :
    accountCreatedEvent.type_ ≠ "fill" ∧
    accountCreatedEvent.type_ ≠ "trade_executed" ∧
    DeltaNeutralHandler accountCreatedEvent dnStrategyAB = Except.ok [] :=
  ⟨by decide, by decide,
   dn_non_fill_events_skipped accountCreatedEvent dnStrategyAB
     (by decide) (by decide)⟩

/-- C10: the trade request built by placeOrder goes to the polymarket
base URL exactly when the command platform is the string polymarket and
to the predict base URL for every other platform value, including the
empty string; and the confirm field of the request body is the negation
of the dry-run flag. -/
theorem dispatcher_platform_routing_and_confirm (ex : Executor) (cmd : Command) :
    (placeOrderRequest ex cmd).url =
      (if cmd.Platform = "polymarket" then ex.polymarketURL
       else ex.predictURL) ++ "/trade" ∧
    lookupKey (placeOrderRequest ex cmd).payload "confirm" =
      some (GoVal.boolean (!ex.dryRun)) := by
  constructor
  · rfl
  · simp [placeOrderRequest, lookupKey]
